import Mathlib

/-!
# Gitea webhook verifier: `Webhook.Parse`

A shallow embedding of `gitea/gitea.go` (package `gitea`): the construction of a
`Webhook` (`New`, `Options.Secret`) and the verification pipeline `Webhook.Parse`.

Conventions of the embedding.

* A Go `string` and a Go `[]byte` are both finite byte sequences: `List UInt8`.
  The conversions `[]byte(s)` and `string(b)` are the identity.
* The Go return pair `(interface{}, error)` is a pair of options; `none` is `nil`.
  Both components may be non-nil at once, as in Go.
* The request body is an explicit stream state (`ReadCloser`): the bytes not yet
  read, whether the stream ends in a read error, and how often it was closed.
  `Parse` returns the final stream state next to the Go result.
* The Go standard library functions that the code calls and that are too large
  to transcribe (`crypto/hmac` over `crypto/sha256`, `encoding/json`) are fields
  of `StdLib`. The small ones (`hex.EncodeToString`, `hmac.Equal`,
  `http.Header.Get`, `ioutil.ReadAll`) are transcribed.
* The two `fmt.Println` calls write to standard output only and are left out.
-/

namespace gitea

/-! ## Go strings -/

/-- Go `string` and `[]byte`: a finite sequence of bytes. -/
abbrev GoString := List UInt8

/-- The Go string of an ASCII string literal of the source. -/
def str (s : String) : GoString := s.data.map (fun c => UInt8.ofNat c.toNat)

/-! ## Errors (gitea.go, lines 21-31) -/

/-- Go `error` values that `New` and `Parse` can return.
The eight sentinel errors of the `var` block are constructors of their own, so
that comparing with a sentinel is comparing constructors. `E` is the type of the
errors of `json.Unmarshal`. -/
inductive Error (E : Type) where
  | ErrEventNotSpecifiedToParse
  | ErrInvalidHTTPMethod
  | ErrMissingGiteaEventHeader
  | ErrMissingGiteaSignatureHeader
  | ErrHMACVerificationFailed
  | ErrEventNotFound
  | ErrParsingPayload
  | ErrParsingSystemPayload
  /-- The value of `errors.New(msg)` at another place than the `var` block. -/
  | errorsNew (msg : GoString)
  /-- The value of `fmt.Errorf`, with its formatted message. -/
  | Errorf (msg : GoString)
  /-- An error returned by `json.Unmarshal`. -/
  | unmarshal (e : E)
  deriving DecidableEq, Repr

/-! ## Events (gitea.go, lines 65-86 and 111) -/

/-- The Go type `Event`, a string. -/
abbrev Event := GoString

def CreateEvents : Event := str "create"
def DeleteEvents : Event := str "delete"
def ForkEvents : Event := str "fork"
def PushEvents : Event := str "push"
def IssuesEvents : Event := str "issues"
def IssueAssignEvents : Event := str "issue_assign"
def IssueLabelEvents : Event := str "issue_label"
def IssueMilestoneEvents : Event := str "issue_milestone"
def IssueCommentEvents : Event := str "issue_comment"
def PullRequestEvents : Event := str "pull_request"
def PullRequestAssignEvents : Event := str "pull_request_assign"
def PullRequestLabelEvents : Event := str "pull_request_label"
def PullRequestMilestoneEvents : Event := str "pull_request_milestone"
def PullRequestCommentEvents : Event := str "pull_request_comment"
def PullRequestReviewApprovedEvents : Event := str "pull_request_review_approved"
def PullRequestReviewRejectedEvents : Event := str "pull_request_review_rejected"
def PullRequestReviewCommentEvents : Event := str "pull_request_review_comment"
def PullRequestSyncEvents : Event := str "pull_request_sync"
def RepositoryEvents : Event := str "repository"
def ReleaseEvents : Event := str "release"

/-! ## Payloads -/

/-- The eight payload struct types of payload.go that `Parse` decodes into. -/
inductive Shape where
  | CreatePayload
  | DeletePayload
  | ForkPayload
  | PushPayload
  | IssuePayload
  | PullRequestPayload
  | RepositoryPayload
  | ReleasePayload
  deriving DecidableEq, Repr

/-- A non-nil `interface{}` returned by `Parse`: a struct value `pl` of one of the
eight payload types. `shape` is its dynamic type and `value` its contents, as
`json.Unmarshal` left them. -/
structure Payload (V : Type) where
  shape : Shape
  value : V
  deriving DecidableEq, Repr

/-- The Go result `(interface{}, error)` of `Parse`. -/
abbrev Result (V E : Type) := Option (Payload V) × Option (Error E)

/-! ## Standard library -/

/-- The standard library functions that `Parse` calls and that are not
transcribed here.

* `hmacSHA256 key msg` is `mac.Sum(nil)` for `mac := hmac.New(sha256.New, key)`
  after `mac.Write(msg)`; an HMAC-SHA256 digest has `sha256.Size = 32` bytes.
* `jsonUnmarshal shape data` is `json.Unmarshal(data, &pl)` for `var pl T` with
  `T` the struct type `shape`: the contents of `pl` afterwards, and the error. -/
structure StdLib (V E : Type) where
  hmacSHA256 : GoString → List UInt8 → List UInt8
  hmacSHA256_size : ∀ key msg, (hmacSHA256 key msg).length = 32
  jsonUnmarshal : Shape → List UInt8 → V × Option E

namespace hex

/-- Go `encoding/hex`: `const hextable = "0123456789abcdef"`. -/
def hextable : GoString := str "0123456789abcdef"

/-- Go `hex.EncodeToString`: every byte `v` of `src` becomes the two characters
`hextable[v>>4]` and `hextable[v&0x0f]`. -/
def EncodeToString (src : List UInt8) : GoString :=
  src.flatMap (fun v => [hextable.getD (v.toNat >>> 4) 0, hextable.getD (v.toNat &&& 0x0f) 0])

end hex

namespace subtle

/-- Go `subtle.ConstantTimeByteEq(x, y uint8) int`:
`int((uint32(x^y) - 1) >> 31)`, the subtraction being modulo `2^32`. -/
def ConstantTimeByteEq (x y : Nat) : Nat :=
  (((x ^^^ y) + 2 ^ 32 - 1) % 2 ^ 32) >>> 31

/-- The loop of `subtle.ConstantTimeCompare`: `v |= x[i] ^ y[i]` for every index,
starting from `v`. It visits every index, whatever the bytes are. -/
def xorFold : Nat → List UInt8 → List UInt8 → Nat
  | v, a :: x, b :: y => xorFold (v ||| (a.toNat ^^^ b.toNat)) x y
  | v, _, _ => v

/-- Go `subtle.ConstantTimeCompare(x, y []byte) int`: `0` when the lengths
differ, else `ConstantTimeByteEq(v, 0)` for the accumulated `v`. -/
def ConstantTimeCompare (x y : List UInt8) : Nat :=
  if x.length ≠ y.length then 0
  else ConstantTimeByteEq (xorFold 0 x y) 0

end subtle

namespace hmac

/-- Go `hmac.Equal(mac1, mac2 []byte) bool`:
`subtle.ConstantTimeCompare(mac1, mac2) == 1`. -/
def Equal (mac1 mac2 : List UInt8) : Bool :=
  subtle.ConstantTimeCompare mac1 mac2 == 1

end hmac

/-! ## Requests -/

/-- Go `io.ReadCloser` of a request body, as an explicit state.
`unread` are the bytes a reader still gets; `failing` says that the stream ends
in a read error instead of `io.EOF`; `closed` counts the calls of `Close`. -/
structure ReadCloser where
  unread : List UInt8
  failing : Bool
  closed : Nat
  deriving DecidableEq, Repr

namespace ioutil

/-- Go `ioutil.ReadAll(r)`: reads until `io.EOF` or an error; returns the bytes
read and whether an error (other than `io.EOF`) ended the reading, and leaves
nothing unread. -/
def ReadAll (b : ReadCloser) : (List UInt8 × Bool) × ReadCloser :=
  ((b.unread, b.failing), ⟨[], b.failing, b.closed⟩)

/-- Go `io.Copy(ioutil.Discard, r)`: reads until `io.EOF` or an error and drops
the bytes. -/
def CopyDiscard (b : ReadCloser) : ReadCloser :=
  ⟨[], b.failing, b.closed⟩

end ioutil

/-- Go `r.Body.Close()`. -/
def ReadCloser.Close (b : ReadCloser) : ReadCloser :=
  ⟨b.unread, b.failing, b.closed + 1⟩

namespace http

/-- Go `http.MethodPost`. -/
def MethodPost : GoString := str "POST"

/-- Go `http.Header`, a `map[string][]string`, as an association list; the
first entry of a key is the one the map holds. -/
abbrev Header := List (GoString × List GoString)

/-- Go map indexing `h[key]`: the values of `key`, the nil slice when absent. -/
def Header.index (h : Header) (key : GoString) : List GoString :=
  match h.lookup key with
  | some v => v
  | none => []

/-- Go `http.Header.Get(key)` for a key that is already in canonical form (as
`X-Gitea-Event` and `X-Gitea-Signature` are): the first value of the key, the
empty string when there is none. -/
def Header.Get (h : Header) (key : GoString) : GoString :=
  match Header.index h key with
  | [] => []
  | v :: _ => v

/-- Go `*http.Request`: the fields `Parse` reads. -/
structure Request where
  Method : GoString
  Header : Header
  Body : ReadCloser
  deriving DecidableEq, Repr

end http

/-! ## Construction (gitea.go, lines 88-122) -/

/-- Go `type Webhook struct { secret string }`. -/
structure Webhook where
  secret : GoString
  deriving DecidableEq, Repr

/-- Go `type Option func(*Webhook) error`: the hook after the call, and the
error. (Named `HookOption`, `Option` being taken.) -/
abbrev HookOption (E : Type) := Webhook → Webhook × Option (Error E)

/-- Go `WebhookOptions.Secret`: sets `hook.secret` and returns `nil`. -/
def WebhookOptions.Secret {E : Type} (secret : GoString) : HookOption E :=
  fun _hook => (⟨secret⟩, none)

/-- The loop of `New` over the options, on the hook built so far. -/
def New.loop {E : Type} : Webhook → List (HookOption E) → Option Webhook × Option (Error E)
  | hook, [] => (some hook, none)
  | hook, opt :: options =>
    match opt hook with
    | (_, some _) => (none, some (Error.errorsNew (str "Error applying Option")))
    | (hook1, none) => New.loop hook1 options

/-- Go `New(options ...Option) (*Webhook, error)`, starting from `new(Webhook)`,
whose secret is the empty string. -/
def New {E : Type} (options : List (HookOption E)) : Option Webhook × Option (Error E) :=
  New.loop ⟨[]⟩ options

/-! ## Parse (gitea.go, lines 124-232) -/

/-- The loop of lines 147-153: is `giteaEvent` equal to one of `events`. -/
def found : List Event → Event → Bool
  | [], _ => false
  | evt :: events, giteaEvent => if evt = giteaEvent then true else found events giteaEvent

/-- Lines 165-179: `none` when `Parse` goes on, the error of the early return
otherwise. -/
def checkMAC {V E : Type} (lib : StdLib V E) (hook : Webhook) (r : http.Request)
    (payload : List UInt8) : Option (Error E) :=
  if hook.secret.length > 0 then
    let signature := r.Header.Get (str "X-Gitea-Signature")
    if signature.length = 0 then some Error.ErrMissingGiteaSignatureHeader
    else
      let expectedMAC := hex.EncodeToString (lib.hmacSHA256 hook.secret payload)
      if !hmac.Equal signature expectedMAC then some Error.ErrHMACVerificationFailed
      else none
  else none

/-- One `case` of the switch: `var pl T; err := json.Unmarshal(payload, &pl);
return pl, err`. -/
def decodeAs {V E : Type} (lib : StdLib V E) (shape : Shape) (payload : List UInt8) :
    Result V E :=
  (some ⟨shape, (lib.jsonUnmarshal shape payload).1⟩,
   (lib.jsonUnmarshal shape payload).2.map Error.unmarshal)

/-- Lines 183-231: the switch on `giteaEvent`. -/
def switchEvent {V E : Type} (lib : StdLib V E) (giteaEvent : Event) (payload : List UInt8) :
    Result V E :=
  if giteaEvent = CreateEvents then decodeAs lib Shape.CreatePayload payload
  else if giteaEvent = DeleteEvents then decodeAs lib Shape.DeletePayload payload
  else if giteaEvent = ForkEvents then decodeAs lib Shape.ForkPayload payload
  else if giteaEvent = PushEvents then decodeAs lib Shape.PushPayload payload
  else if giteaEvent = IssuesEvents then decodeAs lib Shape.IssuePayload payload
  else if giteaEvent = PullRequestEvents then decodeAs lib Shape.PullRequestPayload payload
  else if giteaEvent = RepositoryEvents then decodeAs lib Shape.RepositoryPayload payload
  else if giteaEvent = ReleaseEvents then decodeAs lib Shape.ReleasePayload payload
  else (none, some (Error.Errorf (str "unknown event " ++ giteaEvent)))

/-- The body of `Parse` (lines 133-231) without the deferred function: the Go
result and the state of `r.Body` when the `return` is reached. -/
def Parse.run {V E : Type} (lib : StdLib V E) (hook : Webhook) (r : http.Request)
    (events : List Event) : Result V E × ReadCloser :=
  if events.length = 0 then ((none, some Error.ErrEventNotSpecifiedToParse), r.Body)
  else if r.Method ≠ http.MethodPost then ((none, some Error.ErrInvalidHTTPMethod), r.Body)
  else
    let event := r.Header.Get (str "X-Gitea-Event")
    if event.length = 0 then ((none, some Error.ErrMissingGiteaEventHeader), r.Body)
    else
      let giteaEvent : Event := event
      if !found events giteaEvent then ((none, some Error.ErrEventNotFound), r.Body)
      else
        let read := ioutil.ReadAll r.Body
        let payload := read.1.1
        let err := read.1.2
        if err ∨ payload.length = 0 then ((none, some Error.ErrParsingPayload), read.2)
        else
          match checkMAC lib hook r payload with
          | some e => ((none, some e), read.2)
          | none => (switchEvent lib giteaEvent payload, read.2)

/-- The deferred function of lines 126-129: drain the body, then close it. -/
def Parse.deferred (b : ReadCloser) : ReadCloser :=
  (ioutil.CopyDiscard b).Close

/-- Go `func (hook Webhook) Parse(r *http.Request, events ...Event)
(interface{}, error)`: the result of the body, and the state of `r.Body` after
the deferred function has run. -/
def Parse {V E : Type} (lib : StdLib V E) (hook : Webhook) (r : http.Request)
    (events : List Event) : Result V E × ReadCloser :=
  ((Parse.run lib hook r events).1, Parse.deferred (Parse.run lib hook r events).2)

/-! ## The table of the specification -/

/-- The fixed table of the specification from event kind to payload shape,
written from its words (`create -> CreatePayload`, ...), to be compared with the
switch of `Parse`. -/
def payloadTable : List (GoString × Shape) :=
  [(str "create", Shape.CreatePayload),
   (str "delete", Shape.DeletePayload),
   (str "fork", Shape.ForkPayload),
   (str "push", Shape.PushPayload),
   (str "issues", Shape.IssuePayload),
   (str "pull_request", Shape.PullRequestPayload),
   (str "repository", Shape.RepositoryPayload),
   (str "release", Shape.ReleasePayload)]

/-- The twelve event kinds that gitea.go declares as `Event` constants (lines
71-83) and that have no `case` in the switch of `Parse`, in the order of the
specification. -/
def unimplementedEvents : List Event :=
  [IssueAssignEvents, IssueLabelEvents, IssueMilestoneEvents, IssueCommentEvents,
   PullRequestAssignEvents, PullRequestLabelEvents, PullRequestMilestoneEvents,
   PullRequestCommentEvents, PullRequestReviewApprovedEvents,
   PullRequestReviewRejectedEvents, PullRequestReviewCommentEvents, PullRequestSyncEvents]

/-! ## customTime (payload.go, lines 8-31) -/

namespace strings

/-- Go `strings.trimRightByte(s, c)`: drops the last byte while it is `c`. -/
def trimRightByte (s : GoString) (c : UInt8) : GoString :=
  (s.reverse.dropWhile (fun a => a == c)).reverse

/-- Go `strings.trimLeftByte(s, c)`: drops the first byte while it is `c`. -/
def trimLeftByte (s : GoString) (c : UInt8) : GoString :=
  s.dropWhile (fun a => a == c)

/-- Go `strings.Trim(s, cutset)` for a cutset of one ASCII character `c`:
`trimLeftByte(trimRightByte(s, c), c)`. -/
def Trim (s : GoString) (c : UInt8) : GoString :=
  trimLeftByte (trimRightByte s c) c

end strings

namespace time

/-- Go `time.RFC3339`. -/
def RFC3339 : GoString := str "2006-01-02T15:04:05Z07:00"

end time

/-- The part of the Go package `time` that `customTime.UnmarshalJSON` uses:
`zero` is `time.Time{}`, and `Parse layout value` is `time.Parse(layout, value)`,
which returns a time and an error. -/
structure TimeLib (T PE : Type) where
  zero : T
  Parse : GoString → GoString → T × Option PE

namespace customTime

/-- The slice `layout` of `UnmarshalJSON` (payload.go, lines 13-18). -/
def layout : List GoString :=
  [str "2006-01-02 15:04:05 MST",
   str "2006-01-02 15:04:05 Z07:00",
   str "2006-01-02 15:04:05 Z0700",
   time.RFC3339]

/-- The loop of lines 24-29 on the layouts still to try, from the current
values of `t.Time` and `err`: every iteration assigns both from `time.Parse`,
and the loop is left when `err` is nil. -/
def UnmarshalJSON.loop {T PE : Type} (tl : TimeLib T PE) (s : GoString) :
    List GoString → T × Option PE → T × Option PE
  | [], st => st
  | l :: rest, _ =>
    match tl.Parse l s with
    | (t, none) => (t, none)
    | (t, some err) => UnmarshalJSON.loop tl s rest (t, some err)

/-- Go `func (t *customTime) UnmarshalJSON(b []byte) (err error)`: from the
value `t` of `t.Time` before the call, the value of `t.Time` after it and the
error. The double quote is the byte `0x22`. -/
def UnmarshalJSON {T PE : Type} (tl : TimeLib T PE) (t : T) (b : List UInt8) : T × Option PE :=
  let s := strings.Trim b 0x22
  if s = str "null" then (tl.zero, none)
  else UnmarshalJSON.loop tl s layout (t, none)

/-- What a caller gets from a call that returned `(t, err)`: the time when the
error is nil, nothing otherwise. -/
def decoded {T PE : Type} : T × Option PE → Option T
  | (t, none) => some t
  | (_, some _) => none

/-- The reference decoder of the specification, written from its words: `s` is
`b` without its leading and its trailing double quotes; `null` gives the zero
time; otherwise the four layouts are tried in their order and the first one
that parses `s` gives the value; there is a value exactly when some layout
parses `s`. -/
def referenceDecoder {T PE : Type} (tl : TimeLib T PE) (b : List UInt8) : Option T :=
  let s := (b.dropWhile (fun a => a == 0x22)).rdropWhile (fun a => a == 0x22)
  if s = str "null" then some tl.zero
  else
    [str "2006-01-02 15:04:05 MST", str "2006-01-02 15:04:05 Z07:00",
     str "2006-01-02 15:04:05 Z0700", str "2006-01-02T15:04:05Z07:00"].findSome?
      (fun l => decoded (tl.Parse l s))

end customTime

/-! ## Concrete inputs -/

/-- A small `StdLib` on which `Parse` can be evaluated. It stands in for the
Go library on concrete inputs only; every theorem below is stated for an
arbitrary `StdLib`. Its digest is 32 copies of one byte computed from the two
lengths; its decoder accepts exactly the JSON text `null`. -/
def toyStdLib : StdLib (List UInt8) Nat where
  hmacSHA256 key msg := List.replicate 32 (UInt8.ofNat (16 * key.length + msg.length))
  hmacSHA256_size := by intro key msg; simp
  jsonUnmarshal _ data := if data = str "null" then (data, none) else ([], some data.length)

/-- A request with the given method, headers and body, the body being unread,
readable to its end and not closed. -/
def NewRequest (method : GoString) (header : http.Header) (body : List UInt8) : http.Request :=
  ⟨method, header, ⟨body, false, 0⟩⟩

/-! ## Lemmas on the transcribed library functions -/

/-- The loop of lines 147-153 finds the event exactly when it is in the list. -/
theorem found_iff_mem (events : List Event) (giteaEvent : Event) :
    found events giteaEvent = true ↔ giteaEvent ∈ events := by
  induction events with
  | nil => simp [found]
  | cons evt rest ih =>
    by_cases h : evt = giteaEvent
    · simp [found, h]
    · have h2 : ¬ giteaEvent = evt := fun e => h e.symm
      simp [found, h, h2, ih]

/-- The deferred function does not touch the Go result. -/
theorem Parse_fst {V E : Type} (lib : StdLib V E) (hook : Webhook) (r : http.Request)
    (events : List Event) :
    (Parse lib hook r events).1 = (Parse.run lib hook r events).1 := rfl

/-- A bitwise or is zero only when both operands are. -/
theorem subtle.or_eq_zero_iff (v w : Nat) : v ||| w = 0 ↔ v = 0 ∧ w = 0 := by
  constructor
  · intro h
    have hb : ∀ i, v.testBit i = false ∧ w.testBit i = false := by
      intro i
      have hi : (v ||| w).testBit i = false := by rw [h]; simp
      rw [Nat.testBit_or] at hi
      simpa using hi
    constructor
    · apply Nat.eq_of_testBit_eq
      intro i
      simp [(hb i).1]
    · apply Nat.eq_of_testBit_eq
      intro i
      simp [(hb i).2]
  · rintro ⟨rfl, rfl⟩
    rfl

/-- The accumulator of the comparison loop stays a byte. -/
theorem subtle.xorFold_lt (x : List UInt8) : ∀ (y : List UInt8) (v : Nat), v < 2 ^ 8 →
    subtle.xorFold v x y < 2 ^ 8 := by
  induction x with
  | nil => intro y v hv; simpa [subtle.xorFold] using hv
  | cons a x ih =>
    intro y v hv
    cases y with
    | nil => simpa [subtle.xorFold] using hv
    | cons b y =>
      simp only [subtle.xorFold]
      exact ih y _ (Nat.or_lt_two_pow hv (Nat.xor_lt_two_pow a.toNat_lt b.toNat_lt))

/-- On slices of one length, the accumulator ends at zero exactly when it
started at zero and the slices are equal. -/
theorem subtle.xorFold_eq_zero_iff (x : List UInt8) : ∀ (y : List UInt8) (v : Nat),
    x.length = y.length → (subtle.xorFold v x y = 0 ↔ v = 0 ∧ x = y) := by
  induction x with
  | nil =>
    intro y v hl
    cases y with
    | nil => simp [subtle.xorFold]
    | cons b y => simp at hl
  | cons a x ih =>
    intro y v hl
    cases y with
    | nil => simp at hl
    | cons b y =>
      have hl2 : x.length = y.length := by simpa using hl
      simp only [subtle.xorFold]
      rw [ih y _ hl2, subtle.or_eq_zero_iff, Nat.xor_eq_zero]
      constructor
      · rintro ⟨⟨hv, hab⟩, hxy⟩
        exact ⟨hv, by rw [UInt8.ext hab, hxy]⟩
      · rintro ⟨hv, hxy⟩
        injection hxy with h1 h2
        exact ⟨⟨hv, by rw [h1]⟩, h2⟩

/-- On a byte, `ConstantTimeByteEq(v, 0)` is `1` exactly when `v` is zero. -/
theorem subtle.ConstantTimeByteEq_zero_iff (v : Nat) (hv : v < 2 ^ 8) :
    subtle.ConstantTimeByteEq v 0 = 1 ↔ v = 0 := by
  unfold subtle.ConstantTimeByteEq
  rw [Nat.xor_zero, Nat.shiftRight_eq_div_pow]
  norm_num at hv ⊢
  omega

/-- The comparison `hmac.Equal` accepts exactly the equal byte strings. -/
theorem hmac.Equal_iff (mac1 mac2 : List UInt8) : hmac.Equal mac1 mac2 = true ↔ mac1 = mac2 := by
  unfold hmac.Equal subtle.ConstantTimeCompare
  by_cases hl : mac1.length = mac2.length
  · simp only [hl, ne_eq, not_true_eq_false, if_false, beq_iff_eq]
    rw [subtle.ConstantTimeByteEq_zero_iff _ (subtle.xorFold_lt _ _ _ (by norm_num)),
      subtle.xorFold_eq_zero_iff _ _ _ hl]
    simp
  · have hne : mac1 ≠ mac2 := fun h => hl (by rw [h])
    simp [hl, hne]

/-- The hex encoding has two characters per byte. -/
theorem hex.EncodeToString_length (src : List UInt8) :
    (hex.EncodeToString src).length = 2 * src.length := by
  induction src with
  | nil => rfl
  | cons v src ih =>
    have : hex.EncodeToString (v :: src) = _ :: _ :: hex.EncodeToString src := rfl
    rw [this]
    simp [ih]
    omega

/-- The expected MAC of line 174 is never the empty string. -/
theorem expectedMAC_ne_nil {V E : Type} (lib : StdLib V E) (key : GoString) (msg : List UInt8) :
    hex.EncodeToString (lib.hmacSHA256 key msg) ≠ [] := by
  intro h
  have hl := hex.EncodeToString_length (lib.hmacSHA256 key msg)
  rw [h, lib.hmacSHA256_size] at hl
  simp at hl

/-! ## Lemmas on the steps of `Parse` -/

/-- `Header.Get` is the empty string when the key has no value or its first
value is the empty string. -/
theorem Get_eq_nil_of_index (h : http.Header) (key : GoString)
    (hh : http.Header.index h key = [] ∨ (http.Header.index h key).head? = some []) :
    http.Header.Get h key = [] := by
  unfold http.Header.Get
  rcases hh with h1 | h1
  · rw [h1]
  · cases hidx : http.Header.index h key with
    | nil => rfl
    | cons v rest =>
      rw [hidx] at h1
      simp at h1
      simp [h1]

/-- Without a secret, lines 165-179 are skipped. -/
theorem checkMAC_no_secret {V E : Type} (lib : StdLib V E) (r : http.Request)
    (payload : List UInt8) : checkMAC lib ⟨[]⟩ r payload = none := by
  simp [checkMAC]

/-- With a secret and an empty signature value, line 168 returns. -/
theorem checkMAC_missing {V E : Type} (lib : StdLib V E) (hook : Webhook) (r : http.Request)
    (payload : List UInt8) (hs : hook.secret ≠ [])
    (hsig : http.Header.Get r.Header (str "X-Gitea-Signature") = []) :
    checkMAC lib hook r payload = some Error.ErrMissingGiteaSignatureHeader := by
  have hpos : 0 < hook.secret.length := List.length_pos.2 hs
  simp [checkMAC, hpos, hsig]

/-- With a secret and a non-empty signature value other than the expected MAC,
line 177 returns. -/
theorem checkMAC_mismatch {V E : Type} (lib : StdLib V E) (hook : Webhook) (r : http.Request)
    (payload : List UInt8) (hs : hook.secret ≠ [])
    (hsig : http.Header.Get r.Header (str "X-Gitea-Signature") ≠ [])
    (hne : http.Header.Get r.Header (str "X-Gitea-Signature")
      ≠ hex.EncodeToString (lib.hmacSHA256 hook.secret payload)) :
    checkMAC lib hook r payload = some Error.ErrHMACVerificationFailed := by
  have hpos : 0 < hook.secret.length := List.length_pos.2 hs
  have heq : hmac.Equal (http.Header.Get r.Header (str "X-Gitea-Signature"))
      (hex.EncodeToString (lib.hmacSHA256 hook.secret payload)) = false := by
    cases hb : hmac.Equal (http.Header.Get r.Header (str "X-Gitea-Signature"))
      (hex.EncodeToString (lib.hmacSHA256 hook.secret payload)) with
    | false => rfl
    | true => exact absurd ((hmac.Equal_iff _ _).1 hb) hne
  simp [checkMAC, hpos, hsig, heq]

/-- With the expected MAC as signature value, lines 165-179 let the request
pass, whatever the secret is. -/
theorem checkMAC_valid {V E : Type} (lib : StdLib V E) (hook : Webhook) (r : http.Request)
    (payload : List UInt8)
    (hsig : http.Header.Get r.Header (str "X-Gitea-Signature")
      = hex.EncodeToString (lib.hmacSHA256 hook.secret payload)) :
    checkMAC lib hook r payload = none := by
  have hnil := expectedMAC_ne_nil lib hook.secret payload
  have heq : hmac.Equal (hex.EncodeToString (lib.hmacSHA256 hook.secret payload))
      (hex.EncodeToString (lib.hmacSHA256 hook.secret payload)) = true :=
    (hmac.Equal_iff _ _).2 rfl
  simp [checkMAC, hsig, hnil, heq]

/-- The result of `Parse` for a `POST` request of a subscribed kind with a
readable, non-empty body: lines 165-231. -/
theorem Parse_of_read {V E : Type} (lib : StdLib V E) (hook : Webhook) (r : http.Request)
    (events : List Event) (hm : r.Method = http.MethodPost)
    (hk : http.Header.Get r.Header (str "X-Gitea-Event") ≠ [])
    (hmem : http.Header.Get r.Header (str "X-Gitea-Event") ∈ events)
    (hread : r.Body.failing = false) (hbody : r.Body.unread ≠ []) :
    (Parse lib hook r events).1 =
      match checkMAC lib hook r r.Body.unread with
      | some e => (none, some e)
      | none => switchEvent lib (http.Header.Get r.Header (str "X-Gitea-Event")) r.Body.unread := by
  have hev : events ≠ [] := List.ne_nil_of_mem hmem
  have hf := (found_iff_mem _ _).2 hmem
  simp only [Parse, Parse.run, ioutil.ReadAll, hm, hf, hread]
  simp only [List.length_eq_zero, hev, hk, hbody]
  cases checkMAC lib hook r r.Body.unread <;> simp

/-- A slice with one element replaced by another value is another slice. -/
theorem set_ne_self (l : List UInt8) (i : Nat) (c : UInt8) (hi : i < l.length)
    (hc : c ≠ l[i]) : l.set i c ≠ l := by
  intro h
  have h1 : (l.set i c)[i]? = some c := by simp [hi]
  rw [h] at h1
  rw [List.getElem?_eq_getElem hi] at h1
  exact hc (Option.some.inj h1).symm

/-- The switch never returns one of the two signature errors. -/
theorem switchEvent_err {V E : Type} (lib : StdLib V E) (giteaEvent : Event)
    (payload : List UInt8) :
    (switchEvent lib giteaEvent payload).2 ≠ some Error.ErrMissingGiteaSignatureHeader ∧
    (switchEvent lib giteaEvent payload).2 ≠ some Error.ErrHMACVerificationFailed := by
  unfold switchEvent
  split_ifs <;> simp [decodeAs]

/-- When lines 165-179 let the request pass, `Parse` returns neither of the two
signature errors. -/
theorem run_err_of_checkMAC_none {V E : Type} (lib : StdLib V E) (hook : Webhook)
    (r : http.Request) (events : List Event)
    (hc : checkMAC lib hook r r.Body.unread = none) :
    (Parse.run lib hook r events).1.2 ≠ some Error.ErrMissingGiteaSignatureHeader ∧
    (Parse.run lib hook r events).1.2 ≠ some Error.ErrHMACVerificationFailed := by
  unfold Parse.run
  simp only [ioutil.ReadAll, hc]
  split_ifs <;> first | exact switchEvent_err _ _ _ | simp

/-- Two verifiers that both let the request pass lines 165-179 (or both stop it
with the same error) return the same. -/
theorem run_congr_hook {V E : Type} (lib : StdLib V E) (hook1 hook2 : Webhook)
    (r : http.Request) (events : List Event)
    (hc : checkMAC lib hook1 r r.Body.unread = checkMAC lib hook2 r r.Body.unread) :
    Parse.run lib hook1 r events = Parse.run lib hook2 r events := by
  unfold Parse.run
  simp only [ioutil.ReadAll, hc]

/-- The verifier that `New` builds from one `Secret` option, and from none. -/
theorem New_secret {E : Type} (secret : GoString) :
    New [WebhookOptions.Secret secret] = (some ⟨secret⟩, (none : Option (Error E))) := rfl

/-- The verifier that `New` builds from no option has the empty secret. -/
theorem New_nil {E : Type} :
    New [] = (some ⟨[]⟩, (none : Option (Error E))) := rfl

/-- The switch follows the table of the specification. -/
theorem switchEvent_of_table {V E : Type} (lib : StdLib V E) (kind : GoString) (shape : Shape)
    (payload : List UInt8) (htab : (kind, shape) ∈ payloadTable) :
    switchEvent lib kind payload = decodeAs lib shape payload := by
  simp only [payloadTable, List.mem_cons, Prod.mk.injEq, List.mem_singleton, List.not_mem_nil,
    or_false] at htab
  rcases htab with h | h | h | h | h | h | h | h <;> obtain ⟨rfl, rfl⟩ := h <;> rfl

/-- The kinds of the table are not the empty string. -/
theorem kind_ne_nil_of_table (kind : GoString) (shape : Shape)
    (htab : (kind, shape) ∈ payloadTable) : kind ≠ [] := by
  simp only [payloadTable, List.mem_cons, Prod.mk.injEq, List.mem_singleton, List.not_mem_nil,
    or_false] at htab
  rcases htab with h | h | h | h | h | h | h | h <;> obtain ⟨rfl, rfl⟩ := h <;> decide

/-- A kind outside the table of the specification takes the `default` of the
switch. -/
theorem switchEvent_default {V E : Type} (lib : StdLib V E) (k : GoString)
    (payload : List UInt8) (h : k ∉ payloadTable.map Prod.fst) :
    switchEvent lib k payload = (none, some (Error.Errorf (str "unknown event " ++ k))) := by
  simp only [payloadTable, List.map, List.mem_cons, List.mem_singleton, List.not_mem_nil,
    or_false, not_or] at h
  obtain ⟨h1, h2, h3, h4, h5, h6, h7, h8⟩ := h
  unfold switchEvent
  rw [if_neg (show ¬ k = CreateEvents from h1), if_neg (show ¬ k = DeleteEvents from h2),
    if_neg (show ¬ k = ForkEvents from h3), if_neg (show ¬ k = PushEvents from h4),
    if_neg (show ¬ k = IssuesEvents from h5), if_neg (show ¬ k = PullRequestEvents from h6),
    if_neg (show ¬ k = RepositoryEvents from h7), if_neg (show ¬ k = ReleaseEvents from h8)]

/-- The switch either decodes into one shape or takes its `default`. -/
theorem switchEvent_cases {V E : Type} (lib : StdLib V E) (k : GoString)
    (payload : List UInt8) :
    (∃ shape, switchEvent lib k payload = decodeAs lib shape payload) ∨
    switchEvent lib k payload = (none, some (Error.Errorf (str "unknown event " ++ k))) := by
  unfold switchEvent
  split_ifs
  · exact Or.inl ⟨_, rfl⟩
  · exact Or.inl ⟨_, rfl⟩
  · exact Or.inl ⟨_, rfl⟩
  · exact Or.inl ⟨_, rfl⟩
  · exact Or.inl ⟨_, rfl⟩
  · exact Or.inl ⟨_, rfl⟩
  · exact Or.inl ⟨_, rfl⟩
  · exact Or.inl ⟨_, rfl⟩
  · exact Or.inr rfl

/-- Lines 165-179 let the request pass when no secret is set or the signature
value is the expected MAC. -/
theorem checkMAC_pass {V E : Type} (lib : StdLib V E) (hook : Webhook) (r : http.Request)
    (payload : List UInt8)
    (hsig : hook.secret = [] ∨
      http.Header.Get r.Header (str "X-Gitea-Signature")
        = hex.EncodeToString (lib.hmacSHA256 hook.secret payload)) :
    checkMAC lib hook r payload = none := by
  rcases hsig with h | h
  · cases hook with
    | mk secret =>
      simp only at h
      subst h
      exact checkMAC_no_secret lib r _
  · exact checkMAC_valid lib hook r _ h

/-- Lines 165-179 let the request pass only when no secret is set or the
signature value is the expected MAC. -/
theorem checkMAC_none_imp {V E : Type} (lib : StdLib V E) (hook : Webhook) (r : http.Request)
    (payload : List UInt8) (h : checkMAC lib hook r payload = none) :
    hook.secret = [] ∨
      http.Header.Get r.Header (str "X-Gitea-Signature")
        = hex.EncodeToString (lib.hmacSHA256 hook.secret payload) := by
  by_cases hs : hook.secret = []
  · exact Or.inl hs
  · right
    by_cases hsig : http.Header.Get r.Header (str "X-Gitea-Signature") = []
    · rw [checkMAC_missing lib hook r payload hs hsig] at h
      cases h
    · by_contra hne
      rw [checkMAC_mismatch lib hook r payload hs hsig hne] at h
      cases h

/-- The only errors of lines 165-179 are the two signature errors. -/
theorem checkMAC_some_cases {V E : Type} (lib : StdLib V E) (hook : Webhook) (r : http.Request)
    (payload : List UInt8) (e : Error E) (h : checkMAC lib hook r payload = some e) :
    e = Error.ErrMissingGiteaSignatureHeader ∨ e = Error.ErrHMACVerificationFailed := by
  by_cases hs : hook.secret = []
  · cases hook with
    | mk secret =>
      simp only at hs
      subst hs
      rw [checkMAC_no_secret] at h
      cases h
  · by_cases hsig : http.Header.Get r.Header (str "X-Gitea-Signature") = []
    · rw [checkMAC_missing lib hook r payload hs hsig] at h
      exact Or.inl (Option.some.inj h).symm
    · by_cases hne : http.Header.Get r.Header (str "X-Gitea-Signature")
          = hex.EncodeToString (lib.hmacSHA256 hook.secret payload)
      · rw [checkMAC_valid lib hook r payload hne] at h
        cases h
      · rw [checkMAC_mismatch lib hook r payload hs hsig hne] at h
        exact Or.inr (Option.some.inj h).symm

/-- The exits of the body of `Parse`: an early return before the body is read;
the return of line 161; the return of a signature error; the switch. -/
theorem run_cases {V E : Type} (lib : StdLib V E) (hook : Webhook) (r : http.Request)
    (events : List Event) :
    (∃ e, Parse.run lib hook r events = ((none, some e), r.Body) ∧
      (e = Error.ErrEventNotSpecifiedToParse ∨ e = Error.ErrInvalidHTTPMethod ∨
       e = Error.ErrMissingGiteaEventHeader ∨ e = Error.ErrEventNotFound)) ∨
    Parse.run lib hook r events
      = ((none, some Error.ErrParsingPayload), (ioutil.ReadAll r.Body).2) ∨
    (∃ e, checkMAC lib hook r r.Body.unread = some e ∧
      Parse.run lib hook r events = ((none, some e), (ioutil.ReadAll r.Body).2)) ∨
    (checkMAC lib hook r r.Body.unread = none ∧
      Parse.run lib hook r events
        = (switchEvent lib (http.Header.Get r.Header (str "X-Gitea-Event")) r.Body.unread,
           (ioutil.ReadAll r.Body).2)) := by
  unfold Parse.run
  simp only [ioutil.ReadAll]
  split_ifs
  · exact Or.inl ⟨_, rfl, Or.inl rfl⟩
  · exact Or.inl ⟨_, rfl, Or.inr (Or.inl rfl)⟩
  · exact Or.inl ⟨_, rfl, Or.inr (Or.inr (Or.inl rfl))⟩
  · exact Or.inl ⟨_, rfl, Or.inr (Or.inr (Or.inr rfl))⟩
  · exact Or.inr (Or.inl rfl)
  · cases hc : checkMAC lib hook r r.Body.unread with
    | none => exact Or.inr (Or.inr (Or.inr ⟨rfl, rfl⟩))
    | some e => exact Or.inr (Or.inr (Or.inl ⟨e, rfl, rfl⟩))

/-- The twelve kinds without a `case` are outside the table of the
specification and are not the empty string. -/
theorem unimplemented_not_in_table (k : GoString) (h : k ∈ unimplementedEvents) :
    k ∉ payloadTable.map Prod.fst ∧ k ≠ [] := by
  simp only [unimplementedEvents, List.mem_cons, List.mem_singleton, List.not_mem_nil,
    or_false] at h
  rcases h with h | h | h | h | h | h | h | h | h | h | h | h <;> subst h <;> decide

/-! ## Lemmas on `customTime` -/

/-- Dropping from the right of a list with one more element in front. -/
theorem rdropWhile_cons_eq (p : UInt8 → Bool) (a : UInt8) (l : List UInt8) :
    List.rdropWhile p (a :: l)
      = if (∀ x ∈ l, p x = true) then (if p a = true then [] else [a])
        else a :: List.rdropWhile p l := by
  unfold List.rdropWhile
  rw [List.reverse_cons, List.dropWhile_append]
  by_cases hall : ∀ x ∈ l, p x = true
  · have hnil : List.dropWhile p l.reverse = [] := by
      rw [List.dropWhile_eq_nil_iff]
      intro x hx
      exact hall x (List.mem_reverse.1 hx)
    rw [if_pos hall, hnil]
    by_cases hpa : p a = true
    · simp [List.dropWhile, hpa]
    · simp [List.dropWhile, hpa]
  · have hne : List.dropWhile p l.reverse ≠ [] := by
      intro hnil
      rw [List.dropWhile_eq_nil_iff] at hnil
      exact hall (fun x hx => hnil x (List.mem_reverse.2 hx))
    rw [if_neg hall]
    have hemp : (List.dropWhile p l.reverse).isEmpty = false := by
      cases hd : List.dropWhile p l.reverse with
      | nil => exact absurd hd hne
      | cons _ _ => rfl
    rw [hemp]
    simp

/-- Dropping the leading and the trailing elements that satisfy `p` gives the
same list in either order. -/
theorem dropWhile_rdropWhile_comm (p : UInt8 → Bool) (l : List UInt8) :
    List.dropWhile p (List.rdropWhile p l) = List.rdropWhile p (List.dropWhile p l) := by
  induction l with
  | nil => simp [List.rdropWhile]
  | cons a l ih =>
    rw [rdropWhile_cons_eq]
    by_cases hall : ∀ x ∈ l, p x = true
    · rw [if_pos hall]
      have hnil : List.dropWhile p l = [] := List.dropWhile_eq_nil_iff.2 hall
      by_cases hpa : p a = true
      · simp [List.dropWhile, hpa, hnil, List.rdropWhile]
      · have hpa2 : p a = false := by simpa using hpa
        rw [if_neg hpa]
        simp only [List.dropWhile, hpa2]
        rw [rdropWhile_cons_eq, if_pos hall, if_neg hpa]
    · rw [if_neg hall]
      by_cases hpa : p a = true
      · simp only [List.dropWhile, hpa]
        exact ih
      · have hpa2 : p a = false := by simpa using hpa
        simp only [List.dropWhile, hpa2]
        rw [rdropWhile_cons_eq, if_neg hall]

/-- The Go `strings.Trim` with a cutset of one character removes the leading
and the trailing occurrences of it. -/
theorem strings.Trim_eq (s : GoString) (c : UInt8) :
    strings.Trim s c
      = List.rdropWhile (fun a => a == c) (List.dropWhile (fun a => a == c) s) := by
  unfold strings.Trim strings.trimLeftByte strings.trimRightByte
  exact dropWhile_rdropWhile_comm _ s

/-- The loop of `UnmarshalJSON`, entered with an error, ends with the first
layout that parses, or with an error when none does. -/
theorem customTime.loop_decoded {T PE : Type} (tl : TimeLib T PE) (s : GoString)
    (ls : List GoString) : ∀ (st : T × Option PE), customTime.decoded st = none →
    customTime.decoded (customTime.UnmarshalJSON.loop tl s ls st)
      = ls.findSome? (fun l => customTime.decoded (tl.Parse l s)) := by
  induction ls with
  | nil => intro st hst; simpa [customTime.UnmarshalJSON.loop] using hst
  | cons l rest ih =>
    intro st _
    rcases hp : tl.Parse l s with ⟨t, _ | err⟩
    · simp [customTime.UnmarshalJSON.loop, hp, customTime.decoded, List.findSome?]
    · simp only [customTime.UnmarshalJSON.loop, hp, List.findSome?, customTime.decoded]
      exact ih (t, some err) rfl

/-! ## The order of the checks -/

/-- C1: with an empty list of events, `Parse` returns no payload and
`ErrEventNotSpecifiedToParse`, for every verifier (any secret, also none) and
every request (any method, headers and body, readable or not): the check of
line 133 comes before every other one. -/
theorem C1_no_events {V E : Type} (lib : StdLib V E) (hook : Webhook) (r : http.Request) :
    (Parse lib hook r []).1 = (none, some Error.ErrEventNotSpecifiedToParse) := by
  simp [Parse, Parse.run]

/-- C2: with a non-empty list of events and a method other than `POST`, `Parse`
returns no payload and `ErrInvalidHTTPMethod`, whatever the verifier, the
headers, the body and the signature are. -/
theorem C2_invalid_method {V E : Type} (lib : StdLib V E) (hook : Webhook) (r : http.Request)
    (events : List Event) (hev : events ≠ []) (hm : r.Method ≠ http.MethodPost) :
    (Parse lib hook r events).1 = (none, some Error.ErrInvalidHTTPMethod) := by
  simp [Parse, Parse.run, hev, hm]

/-- Witness of C2: a `GET` request of a subscribed kind with a body. -/
theorem C2_invalid_method_witness :
    [PushEvents] ≠ [] ∧
    (NewRequest (str "GET") [(str "X-Gitea-Event", [str "push"])] (str "null")).Method
      ≠ http.MethodPost ∧
    (Parse toyStdLib ⟨str "sampleToken"⟩
      (NewRequest (str "GET") [(str "X-Gitea-Event", [str "push"])] (str "null"))
      [PushEvents]).1 = (none, some Error.ErrInvalidHTTPMethod) :=
  ⟨by decide, by decide, C2_invalid_method _ _ _ _ (by decide) (by decide)⟩

/-- C3: for a `POST` request and a non-empty list of events, when the header
`X-Gitea-Event` is absent (the map has no value for it) or its first value is
the empty string, `Parse` returns no payload and `ErrMissingGiteaEventHeader`,
whatever the verifier, the body and the signature header are. -/
theorem C3_missing_event_header {V E : Type} (lib : StdLib V E) (hook : Webhook)
    (r : http.Request) (events : List Event) (hev : events ≠ [])
    (hm : r.Method = http.MethodPost)
    (hh : http.Header.index r.Header (str "X-Gitea-Event") = [] ∨
          (http.Header.index r.Header (str "X-Gitea-Event")).head? = some []) :
    (Parse lib hook r events).1 = (none, some Error.ErrMissingGiteaEventHeader) := by
  have hget := Get_eq_nil_of_index r.Header (str "X-Gitea-Event") hh
  simp [Parse, Parse.run, hev, hm, hget]

/-- Witness of C3: a `POST` request without any header, and a verifier with a
secret. -/
theorem C3_missing_event_header_witness :
    [PushEvents] ≠ [] ∧
    (NewRequest (str "POST") [] (str "null")).Method = http.MethodPost ∧
    (http.Header.index (NewRequest (str "POST") [] (str "null")).Header
        (str "X-Gitea-Event") = [] ∨
      (http.Header.index (NewRequest (str "POST") [] (str "null")).Header
        (str "X-Gitea-Event")).head? = some []) ∧
    (Parse toyStdLib ⟨str "sampleToken"⟩ (NewRequest (str "POST") [] (str "null"))
      [PushEvents]).1 = (none, some Error.ErrMissingGiteaEventHeader) :=
  ⟨by decide, by decide, by decide,
   C3_missing_event_header _ _ _ _ (by decide) (by decide) (by decide)⟩

/-- C4: for a `POST` request whose `X-Gitea-Event` value is not empty and is not
equal, as a byte string, to any element of the non-empty list of events, `Parse`
returns no payload and `ErrEventNotFound`. The verifier, the body (also an empty
or unreadable one) and the signature header are arbitrary, and so is the kind,
which may be one of the eight kinds of the switch. -/
theorem C4_event_not_subscribed {V E : Type} (lib : StdLib V E) (hook : Webhook)
    (r : http.Request) (events : List Event) (hev : events ≠ [])
    (hm : r.Method = http.MethodPost)
    (hk : http.Header.Get r.Header (str "X-Gitea-Event") ≠ [])
    (hnot : ∀ evt ∈ events, evt ≠ http.Header.Get r.Header (str "X-Gitea-Event")) :
    (Parse lib hook r events).1 = (none, some Error.ErrEventNotFound) := by
  have hf : found events (http.Header.Get r.Header (str "X-Gitea-Event")) = false := by
    cases hfd : found events (http.Header.Get r.Header (str "X-Gitea-Event")) with
    | false => rfl
    | true => exact absurd rfl (hnot _ ((found_iff_mem _ _).1 hfd))
  simp [Parse, Parse.run, hev, hm, hk, hf]

/-- Witness of C4: a `push` delivery, an implemented kind, with a body and no
signature, while only `create` and `Push` (another string) are subscribed. -/
theorem C4_event_not_subscribed_witness :
    [CreateEvents, str "Push"] ≠ [] ∧
    (NewRequest (str "POST") [(str "X-Gitea-Event", [str "push"])] (str "null")).Method
      = http.MethodPost ∧
    http.Header.Get
      (NewRequest (str "POST") [(str "X-Gitea-Event", [str "push"])] (str "null")).Header
      (str "X-Gitea-Event") ≠ [] ∧
    (∀ evt ∈ [CreateEvents, str "Push"], evt ≠ http.Header.Get
      (NewRequest (str "POST") [(str "X-Gitea-Event", [str "push"])] (str "null")).Header
      (str "X-Gitea-Event")) ∧
    (Parse toyStdLib ⟨str "sampleToken"⟩
      (NewRequest (str "POST") [(str "X-Gitea-Event", [str "push"])] (str "null"))
      [CreateEvents, str "Push"]).1 = (none, some Error.ErrEventNotFound) :=
  ⟨by decide, by decide, by decide, by decide,
   C4_event_not_subscribed _ _ _ _ (by decide) (by decide) (by decide) (by decide)⟩

/-! ## The signature check -/

/-- C5: for a verifier with a non-empty secret and a `POST` request of a
subscribed kind (any non-empty kind that is in `events`, implemented or not)
whose body is read without error and is not empty (valid JSON or not): when the
header `X-Gitea-Signature` is absent or its first value is the empty string,
`Parse` returns no payload and `ErrMissingGiteaSignatureHeader`; the switch and
the decoder are not reached. -/
theorem C5_missing_signature {V E : Type} (lib : StdLib V E) (hook : Webhook)
    (r : http.Request) (events : List Event) (hs : hook.secret ≠ [])
    (hm : r.Method = http.MethodPost)
    (hk : http.Header.Get r.Header (str "X-Gitea-Event") ≠ [])
    (hmem : http.Header.Get r.Header (str "X-Gitea-Event") ∈ events)
    (hread : r.Body.failing = false) (hbody : r.Body.unread ≠ [])
    (hsig : http.Header.index r.Header (str "X-Gitea-Signature") = [] ∨
            (http.Header.index r.Header (str "X-Gitea-Signature")).head? = some []) :
    (Parse lib hook r events).1 = (none, some Error.ErrMissingGiteaSignatureHeader) := by
  rw [Parse_of_read lib hook r events hm hk hmem hread hbody,
    checkMAC_missing lib hook r _ hs (Get_eq_nil_of_index _ _ hsig)]

/-- Witness of C5: the delivery of the test of the repository (kind `push`,
secret `sampleToken`) without its signature header, with a body that the
decoder would accept. -/
theorem C5_missing_signature_witness :
    (Webhook.mk (str "sampleToken")).secret ≠ [] ∧
    (NewRequest (str "POST") [(str "X-Gitea-Event", [str "push"])] (str "null")).Method
      = http.MethodPost ∧
    http.Header.Get
      (NewRequest (str "POST") [(str "X-Gitea-Event", [str "push"])] (str "null")).Header
      (str "X-Gitea-Event") ≠ [] ∧
    http.Header.Get
      (NewRequest (str "POST") [(str "X-Gitea-Event", [str "push"])] (str "null")).Header
      (str "X-Gitea-Event") ∈ [PushEvents] ∧
    (NewRequest (str "POST") [(str "X-Gitea-Event", [str "push"])] (str "null")).Body.failing
      = false ∧
    (NewRequest (str "POST") [(str "X-Gitea-Event", [str "push"])] (str "null")).Body.unread
      ≠ [] ∧
    (toyStdLib.jsonUnmarshal Shape.PushPayload (str "null")).2 = none ∧
    (Parse toyStdLib ⟨str "sampleToken"⟩
      (NewRequest (str "POST") [(str "X-Gitea-Event", [str "push"])] (str "null"))
      [PushEvents]).1 = (none, some Error.ErrMissingGiteaSignatureHeader) :=
  ⟨by decide, by decide, by decide, by decide, by decide, by decide, by decide,
   C5_missing_signature _ _ _ _ (by decide) (by decide) (by decide) (by decide) (by decide)
     (by decide) (by decide)⟩

/-- C6: for a verifier with a non-empty secret and a `POST` request of a
subscribed kind whose body is read without error and is not empty: when the
`X-Gitea-Signature` value is not empty and is not byte-equal to the lowercase
hex encoding of HMAC-SHA256(secret, body), or when it is that encoding with the
character at one position replaced by another character, `Parse` returns no
payload and `ErrHMACVerificationFailed`. The first case covers values of another
length and values that differ in the case of a letter. -/
theorem C6_signature_mismatch {V E : Type} (lib : StdLib V E) (hook : Webhook)
    (r : http.Request) (events : List Event) (hs : hook.secret ≠ [])
    (hm : r.Method = http.MethodPost)
    (hk : http.Header.Get r.Header (str "X-Gitea-Event") ≠ [])
    (hmem : http.Header.Get r.Header (str "X-Gitea-Event") ∈ events)
    (hread : r.Body.failing = false) (hbody : r.Body.unread ≠ [])
    (hsig :
      (http.Header.Get r.Header (str "X-Gitea-Signature") ≠ [] ∧
       http.Header.Get r.Header (str "X-Gitea-Signature")
         ≠ hex.EncodeToString (lib.hmacSHA256 hook.secret r.Body.unread)) ∨
      (∃ (i : Nat) (c : UInt8)
          (hi : i < (hex.EncodeToString (lib.hmacSHA256 hook.secret r.Body.unread)).length),
        c ≠ (hex.EncodeToString (lib.hmacSHA256 hook.secret r.Body.unread))[i] ∧
        http.Header.Get r.Header (str "X-Gitea-Signature")
          = (hex.EncodeToString (lib.hmacSHA256 hook.secret r.Body.unread)).set i c)) :
    (Parse lib hook r events).1 = (none, some Error.ErrHMACVerificationFailed) := by
  have hboth : http.Header.Get r.Header (str "X-Gitea-Signature") ≠ [] ∧
      http.Header.Get r.Header (str "X-Gitea-Signature")
        ≠ hex.EncodeToString (lib.hmacSHA256 hook.secret r.Body.unread) := by
    rcases hsig with h | ⟨i, c, hi, hc, hset⟩
    · exact h
    · rw [hset]
      refine ⟨?_, set_ne_self _ i c hi hc⟩
      intro hnil
      have hlen := congrArg List.length hnil
      simp only [List.length_set, List.length_nil] at hlen
      omega
  rw [Parse_of_read lib hook r events hm hk hmem hread hbody,
    checkMAC_mismatch lib hook r _ hs hboth.1 hboth.2]

/-- Witness of C6: the expected signature consists of 32 times `b4`; the request
carries it with the first character replaced by `c`. -/
theorem C6_signature_mismatch_witness :
    hex.EncodeToString (toyStdLib.hmacSHA256 (str "sampleToken") (str "null"))
      = (List.replicate 32 (str "b4")).flatten ∧
    (Parse toyStdLib ⟨str "sampleToken"⟩
      (NewRequest (str "POST")
        [(str "X-Gitea-Event", [str "push"]),
         (str "X-Gitea-Signature", [str "c4" ++ (List.replicate 31 (str "b4")).flatten])]
        (str "null"))
      [PushEvents]).1 = (none, some Error.ErrHMACVerificationFailed) :=
  ⟨by decide,
   C6_signature_mismatch toyStdLib ⟨str "sampleToken"⟩
     (NewRequest (str "POST")
        [(str "X-Gitea-Event", [str "push"]),
         (str "X-Gitea-Signature", [str "c4" ++ (List.replicate 31 (str "b4")).flatten])]
        (str "null"))
     [PushEvents] (by decide) (by decide) (by decide) (by decide) (by decide) (by decide)
     (Or.inr ⟨0, 99, by decide, by decide, by decide⟩)⟩

/-- C7: for every secret and every body, when the `X-Gitea-Signature` value of
a request is the lowercase hex encoding of HMAC-SHA256(secret, body), the
verifier built by `New` with that secret returns exactly what the verifier built
by `New` without option returns for the same request and events (payload, error
and final body state), and its error is neither
`ErrMissingGiteaSignatureHeader` nor `ErrHMACVerificationFailed`. This holds for
every request, in particular for a `POST` request of a subscribed kind. -/
theorem C7_valid_signature {V E : Type} (lib : StdLib V E) (secret : GoString)
    (hookS hook0 : Webhook) (r : http.Request) (events : List Event)
    (hS : New [WebhookOptions.Secret secret] = (some hookS, (none : Option (Error E))))
    (h0 : New [] = (some hook0, (none : Option (Error E))))
    (hsig : http.Header.Get r.Header (str "X-Gitea-Signature")
      = hex.EncodeToString (lib.hmacSHA256 secret r.Body.unread)) :
    Parse lib hookS r events = Parse lib hook0 r events ∧
    (Parse lib hookS r events).1.2 ≠ some Error.ErrMissingGiteaSignatureHeader ∧
    (Parse lib hookS r events).1.2 ≠ some Error.ErrHMACVerificationFailed := by
  have e1 : hookS = ⟨secret⟩ := by
    rw [New_secret] at hS
    exact (Option.some.inj (congrArg Prod.fst hS)).symm
  have e0 : hook0 = ⟨[]⟩ := by
    rw [New_nil] at h0
    exact (Option.some.inj (congrArg Prod.fst h0)).symm
  subst e1 e0
  have hv : checkMAC lib ⟨secret⟩ r r.Body.unread = none := checkMAC_valid lib ⟨secret⟩ r _ hsig
  have hrun : Parse.run lib ⟨secret⟩ r events = Parse.run lib ⟨[]⟩ r events :=
    run_congr_hook lib _ _ r events (by rw [hv, checkMAC_no_secret])
  refine ⟨?_, ?_⟩
  · simp only [Parse, hrun]
  · exact run_err_of_checkMAC_none lib ⟨secret⟩ r events hv

/-- Witness of C7: a signed `push` delivery with secret `sampleToken`; both
verifiers return the decoded push payload and no error. -/
theorem C7_valid_signature_witness :
    (Parse toyStdLib ⟨[]⟩
      (NewRequest (str "POST")
        [(str "X-Gitea-Event", [str "push"]),
         (str "X-Gitea-Signature", [(List.replicate 32 (str "b4")).flatten])]
        (str "null"))
      [PushEvents]).1 = (some ⟨Shape.PushPayload, str "null"⟩, none) ∧
    (Parse toyStdLib ⟨str "sampleToken"⟩
      (NewRequest (str "POST")
        [(str "X-Gitea-Event", [str "push"]),
         (str "X-Gitea-Signature", [(List.replicate 32 (str "b4")).flatten])]
        (str "null"))
      [PushEvents]
     = Parse toyStdLib ⟨[]⟩
      (NewRequest (str "POST")
        [(str "X-Gitea-Event", [str "push"]),
         (str "X-Gitea-Signature", [(List.replicate 32 (str "b4")).flatten])]
        (str "null"))
      [PushEvents]) :=
  ⟨by decide,
   (C7_valid_signature toyStdLib (str "sampleToken") ⟨str "sampleToken"⟩ ⟨[]⟩
     (NewRequest (str "POST")
        [(str "X-Gitea-Event", [str "push"]),
         (str "X-Gitea-Signature", [(List.replicate 32 (str "b4")).flatten])]
        (str "null"))
     [PushEvents] rfl rfl (by decide)).1⟩

/-- C8: the verifier that `New` builds from zero options skips the signature
check. For two requests that agree on the method, on the body and on every
header other than `X-Gitea-Signature` (which may be absent, empty or any string
in either), and for every list of events, `Parse` returns the same payload,
error and final body state; and its error is never
`ErrMissingGiteaSignatureHeader` nor `ErrHMACVerificationFailed`. -/
theorem C8_no_secret_skips_signature {V E : Type} (lib : StdLib V E) (hook0 : Webhook)
    (r1 r2 : http.Request) (events : List Event)
    (h0 : New [] = (some hook0, (none : Option (Error E))))
    (hm : r1.Method = r2.Method) (hb : r1.Body = r2.Body)
    (hh : ∀ key, key ≠ str "X-Gitea-Signature" →
      http.Header.index r1.Header key = http.Header.index r2.Header key) :
    Parse lib hook0 r1 events = Parse lib hook0 r2 events ∧
    (Parse lib hook0 r1 events).1.2 ≠ some Error.ErrMissingGiteaSignatureHeader ∧
    (Parse lib hook0 r1 events).1.2 ≠ some Error.ErrHMACVerificationFailed := by
  have e0 : hook0 = ⟨[]⟩ := by
    rw [New_nil] at h0
    exact (Option.some.inj (congrArg Prod.fst h0)).symm
  subst e0
  have hev : http.Header.Get r1.Header (str "X-Gitea-Event")
      = http.Header.Get r2.Header (str "X-Gitea-Event") := by
    unfold http.Header.Get
    rw [hh (str "X-Gitea-Event") (by decide)]
  refine ⟨?_, run_err_of_checkMAC_none lib ⟨[]⟩ r1 events (checkMAC_no_secret lib r1 _)⟩
  simp only [Parse, Parse.run, checkMAC_no_secret, hm, hb, hev]

/-- Witness of C8: a `push` delivery without signature header, and the same
delivery with the signature `bad`. -/
theorem C8_no_secret_skips_signature_witness :
    (Parse toyStdLib ⟨[]⟩
      (NewRequest (str "POST") [(str "X-Gitea-Event", [str "push"])] (str "null"))
      [PushEvents]).1 = (some ⟨Shape.PushPayload, str "null"⟩, none) ∧
    Parse toyStdLib ⟨[]⟩
      (NewRequest (str "POST") [(str "X-Gitea-Event", [str "push"])] (str "null"))
      [PushEvents]
     = Parse toyStdLib ⟨[]⟩
      (NewRequest (str "POST")
        [(str "X-Gitea-Signature", [str "bad"]), (str "X-Gitea-Event", [str "push"])]
        (str "null"))
      [PushEvents] :=
  ⟨by decide,
   (C8_no_secret_skips_signature toyStdLib ⟨[]⟩
      (NewRequest (str "POST") [(str "X-Gitea-Event", [str "push"])] (str "null"))
      (NewRequest (str "POST")
        [(str "X-Gitea-Signature", [str "bad"]), (str "X-Gitea-Event", [str "push"])]
        (str "null"))
      [PushEvents] rfl rfl rfl
      (by
        intro key hkey
        simp [NewRequest, http.Header.index, List.lookup]
        have hkey2 : (key == str "X-Gitea-Signature") = false := by simpa using hkey
        rw [hkey2])).1⟩

/-- C9, the claim as stated fails: `New` with the option `Secret("")` builds a
verifier whose secret is the empty string, and line 165 skips the signature
check for it. A `push` delivery with a body and without `X-Gitea-Signature`
header is decoded and returned without error. -/
theorem C9_empty_secret_counterexample :
    (New [WebhookOptions.Secret (str "")] : Option Webhook × Option (Error Nat))
      = (some ⟨[]⟩, none) ∧
    (NewRequest (str "POST") [(str "X-Gitea-Event", [str "push"])] (str "null")).Method
      = http.MethodPost ∧
    http.Header.Get
      (NewRequest (str "POST") [(str "X-Gitea-Event", [str "push"])] (str "null")).Header
      (str "X-Gitea-Event") ∈ [PushEvents] ∧
    (NewRequest (str "POST") [(str "X-Gitea-Event", [str "push"])] (str "null")).Body.unread
      ≠ [] ∧
    http.Header.index
      (NewRequest (str "POST") [(str "X-Gitea-Event", [str "push"])] (str "null")).Header
      (str "X-Gitea-Signature") = [] ∧
    (Parse toyStdLib ⟨[]⟩
      (NewRequest (str "POST") [(str "X-Gitea-Event", [str "push"])] (str "null"))
      [PushEvents]).1 = (some ⟨Shape.PushPayload, str "null"⟩, none) ∧
    (Parse toyStdLib ⟨[]⟩
      (NewRequest (str "POST") [(str "X-Gitea-Event", [str "push"])] (str "null"))
      [PushEvents]).1 ≠ (none, some Error.ErrMissingGiteaSignatureHeader) := by
  refine ⟨rfl, ?_, ?_, ?_, ?_, ?_, ?_⟩ <;> decide

/-- C9 as amended: for every verifier that `New` builds from the option
`Secret(secret)` with a non-empty `secret`, a `POST` request of a subscribed
kind whose body is read without error and is not empty, and that has no
`X-Gitea-Signature` header, is rejected with `ErrMissingGiteaSignatureHeader`
and no payload. -/
theorem C9_nonempty_secret_mandatory {V E : Type} (lib : StdLib V E) (secret : GoString)
    (hook : Webhook) (r : http.Request) (events : List Event)
    (hnew : New [WebhookOptions.Secret secret] = (some hook, (none : Option (Error E))))
    (hs : secret ≠ [])
    (hm : r.Method = http.MethodPost)
    (hk : http.Header.Get r.Header (str "X-Gitea-Event") ≠ [])
    (hmem : http.Header.Get r.Header (str "X-Gitea-Event") ∈ events)
    (hread : r.Body.failing = false) (hbody : r.Body.unread ≠ [])
    (hsig : http.Header.index r.Header (str "X-Gitea-Signature") = []) :
    (Parse lib hook r events).1 = (none, some Error.ErrMissingGiteaSignatureHeader) := by
  have e1 : hook = ⟨secret⟩ := by
    rw [New_secret] at hnew
    exact (Option.some.inj (congrArg Prod.fst hnew)).symm
  subst e1
  rw [Parse_of_read lib _ r events hm hk hmem hread hbody,
    checkMAC_missing lib _ r _ hs (Get_eq_nil_of_index _ _ (Or.inl hsig))]

/-- Witness of C9 as amended: the verifier of the test of the repository,
`New(Options.Secret("sampleToken"))`, and an unsigned `release` delivery. -/
theorem C9_nonempty_secret_mandatory_witness :
    (New [WebhookOptions.Secret (str "sampleToken")] : Option Webhook × Option (Error Nat))
      = (some ⟨str "sampleToken"⟩, none) ∧
    str "sampleToken" ≠ [] ∧
    (Parse toyStdLib ⟨str "sampleToken"⟩
      (NewRequest (str "POST") [(str "X-Gitea-Event", [str "release"])] (str "[1]"))
      [PushEvents, ReleaseEvents]).1 = (none, some Error.ErrMissingGiteaSignatureHeader) :=
  ⟨rfl, by decide,
   C9_nonempty_secret_mandatory toyStdLib (str "sampleToken") ⟨str "sampleToken"⟩
     (NewRequest (str "POST") [(str "X-Gitea-Event", [str "release"])] (str "[1]"))
     [PushEvents, ReleaseEvents] rfl (by decide) (by decide) (by decide) (by decide)
     (by decide) (by decide) (by decide)⟩

/-! ## The switch -/

/-- C10: for a `POST` request whose kind is subscribed, whose body is read
without error and is not empty, and that passes the signature check (no secret
is set, or the `X-Gitea-Signature` value is the hex HMAC-SHA256 of the body under
the secret): for every entry `kind -> shape` of the table of the specification,
a request of that kind makes `Parse` return the payload of that shape whose
contents are what `json.Unmarshal` decoded from the body into that shape, and
exactly the error of `json.Unmarshal` (none when the decoder reports none). -/
theorem C10_payload_by_kind {V E : Type} (lib : StdLib V E) (hook : Webhook)
    (r : http.Request) (events : List Event) (kind : GoString) (shape : Shape)
    (htab : (kind, shape) ∈ payloadTable)
    (hm : r.Method = http.MethodPost)
    (hkind : http.Header.Get r.Header (str "X-Gitea-Event") = kind)
    (hmem : kind ∈ events)
    (hread : r.Body.failing = false) (hbody : r.Body.unread ≠ [])
    (hsig : hook.secret = [] ∨
      http.Header.Get r.Header (str "X-Gitea-Signature")
        = hex.EncodeToString (lib.hmacSHA256 hook.secret r.Body.unread)) :
    (Parse lib hook r events).1 =
      (some ⟨shape, (lib.jsonUnmarshal shape r.Body.unread).1⟩,
       (lib.jsonUnmarshal shape r.Body.unread).2.map Error.unmarshal) := by
  have hc : checkMAC lib hook r r.Body.unread = none := by
    rcases hsig with h | h
    · cases hook with
      | mk secret =>
        simp only at h
        subst h
        exact checkMAC_no_secret lib r _
    · exact checkMAC_valid lib hook r _ h
  have hk : http.Header.Get r.Header (str "X-Gitea-Event") ≠ [] := by
    rw [hkind]
    exact kind_ne_nil_of_table kind shape htab
  rw [Parse_of_read lib hook r events hm hk (by rw [hkind]; exact hmem) hread hbody, hc, hkind]
  simp only
  rw [switchEvent_of_table lib kind shape _ htab]
  rfl

/-- Witness of C10: a signed `pull_request` delivery whose body the decoder
rejects: the payload has the shape `PullRequestPayload` and the error is the
one of the decoder. -/
theorem C10_payload_by_kind_witness :
    (str "pull_request", Shape.PullRequestPayload) ∈ payloadTable ∧
    toyStdLib.jsonUnmarshal Shape.PullRequestPayload (str "nul") = ([], some 3) ∧
    (Parse toyStdLib ⟨str "sampleToken"⟩
      (NewRequest (str "POST")
        [(str "X-Gitea-Event", [str "pull_request"]),
         (str "X-Gitea-Signature", [(List.replicate 32 (str "b3")).flatten])]
        (str "nul"))
      [PullRequestEvents]).1 =
      (some ⟨Shape.PullRequestPayload,
         (toyStdLib.jsonUnmarshal Shape.PullRequestPayload (str "nul")).1⟩,
       (toyStdLib.jsonUnmarshal Shape.PullRequestPayload (str "nul")).2.map Error.unmarshal) :=
  ⟨by decide, by decide,
   C10_payload_by_kind toyStdLib ⟨str "sampleToken"⟩
     (NewRequest (str "POST")
        [(str "X-Gitea-Event", [str "pull_request"]),
         (str "X-Gitea-Signature", [(List.replicate 32 (str "b3")).flatten])]
        (str "nul"))
     [PullRequestEvents] (str "pull_request") Shape.PullRequestPayload
     (by decide) (by decide) (by decide) (by decide) (by decide) (by decide)
     (Or.inr (by decide))⟩

/-- C11, the claim as stated fails: gitea.go has no "unimplemented event" error.
A subscribed `issue_assign` delivery (a declared `Event` constant without a
`case`) that passes every check is answered by the `default` of the switch with
the error `unknown event issue_assign`, the very error form that the kind
`bogus`, which is no `Event` constant, gets: `unknown event bogus`. -/
theorem C11_unimplemented_counterexample :
    IssueAssignEvents ∈ unimplementedEvents ∧
    (Parse toyStdLib ⟨[]⟩
      (NewRequest (str "POST") [(str "X-Gitea-Event", [str "issue_assign"])] (str "null"))
      [IssueAssignEvents]).1
      = (none, some (Error.Errorf (str "unknown event issue_assign"))) ∧
    (Parse toyStdLib ⟨[]⟩
      (NewRequest (str "POST") [(str "X-Gitea-Event", [str "bogus"])] (str "null"))
      [str "bogus"]).1
      = (none, some (Error.Errorf (str "unknown event bogus"))) := by
  refine ⟨?_, ?_, ?_⟩ <;> decide

/-- C11 as amended: for each of the twelve kinds that are declared as `Event`
constants and have no `case` in the switch, a `POST` request of that kind that is
subscribed, whose body is read without error and is not empty, and that passes
the signature check, makes `Parse` return no payload and the error of the
`default` of the switch, `unknown event ` followed by the kind: the error that a
kind which is no `Event` constant gets as well. -/
theorem C11_unimplemented_is_unknown {V E : Type} (lib : StdLib V E) (hook : Webhook)
    (r : http.Request) (events : List Event) (k : GoString)
    (hk : k ∈ unimplementedEvents)
    (hm : r.Method = http.MethodPost)
    (hkind : http.Header.Get r.Header (str "X-Gitea-Event") = k)
    (hmem : k ∈ events)
    (hread : r.Body.failing = false) (hbody : r.Body.unread ≠ [])
    (hsig : hook.secret = [] ∨
      http.Header.Get r.Header (str "X-Gitea-Signature")
        = hex.EncodeToString (lib.hmacSHA256 hook.secret r.Body.unread)) :
    (Parse lib hook r events).1
      = (none, some (Error.Errorf (str "unknown event " ++ k))) := by
  obtain ⟨hnot, hne⟩ := unimplemented_not_in_table k hk
  rw [Parse_of_read lib hook r events hm (by rw [hkind]; exact hne)
    (by rw [hkind]; exact hmem) hread hbody, checkMAC_pass lib hook r _ hsig, hkind]
  exact switchEvent_default lib k _ hnot

/-- Witness of C11 as amended: a signed `pull_request_sync` delivery. -/
theorem C11_unimplemented_is_unknown_witness :
    PullRequestSyncEvents ∈ unimplementedEvents ∧
    (Parse toyStdLib ⟨str "sampleToken"⟩
      (NewRequest (str "POST")
        [(str "X-Gitea-Event", [str "pull_request_sync"]),
         (str "X-Gitea-Signature", [(List.replicate 32 (str "b4")).flatten])]
        (str "null"))
      [PullRequestSyncEvents]).1
      = (none, some (Error.Errorf (str "unknown event " ++ PullRequestSyncEvents))) :=
  ⟨by decide,
   C11_unimplemented_is_unknown toyStdLib ⟨str "sampleToken"⟩
     (NewRequest (str "POST")
        [(str "X-Gitea-Event", [str "pull_request_sync"]),
         (str "X-Gitea-Signature", [(List.replicate 32 (str "b4")).flatten])]
        (str "null"))
     [PullRequestSyncEvents] PullRequestSyncEvents
     (by decide) (by decide) (by decide) (by decide) (by decide) (by decide)
     (Or.inr (by decide))⟩

/-- C12: for every kind `k` that is not one of the eight kinds of the switch
(and is not the empty string, which `Parse` takes for a missing header), a
`POST` request with `X-Gitea-Event = k`, with `k` in the list of events, a body
that is read without error and is not empty, and, when a secret is set, the
expected signature, makes `Parse` return no payload and the `fmt.Errorf` error
whose message is `unknown event ` followed by `k`. And this error comes only
after the signature check: whatever verifier answers the same request with a
`fmt.Errorf` error has no secret or has found the expected signature. -/
theorem C12_unknown_event {V E : Type} (lib : StdLib V E) (hook : Webhook)
    (r : http.Request) (events : List Event) (k : GoString)
    (hk : k ∉ payloadTable.map Prod.fst) (hne : k ≠ [])
    (hm : r.Method = http.MethodPost)
    (hkind : http.Header.Get r.Header (str "X-Gitea-Event") = k)
    (hmem : k ∈ events)
    (hread : r.Body.failing = false) (hbody : r.Body.unread ≠ [])
    (hsig : hook.secret = [] ∨
      http.Header.Get r.Header (str "X-Gitea-Signature")
        = hex.EncodeToString (lib.hmacSHA256 hook.secret r.Body.unread)) :
    (Parse lib hook r events).1
      = (none, some (Error.Errorf (str "unknown event " ++ k))) ∧
    ∀ (hook2 : Webhook) (msg : GoString),
      (Parse lib hook2 r events).1.2 = some (Error.Errorf msg) →
      (hook2.secret = [] ∨
        http.Header.Get r.Header (str "X-Gitea-Signature")
          = hex.EncodeToString (lib.hmacSHA256 hook2.secret r.Body.unread)) := by
  constructor
  · rw [Parse_of_read lib hook r events hm (by rw [hkind]; exact hne)
      (by rw [hkind]; exact hmem) hread hbody, checkMAC_pass lib hook r _ hsig, hkind]
    exact switchEvent_default lib k _ hk
  · intro hook2 msg herr
    rw [Parse_of_read lib hook2 r events hm (by rw [hkind]; exact hne)
      (by rw [hkind]; exact hmem) hread hbody] at herr
    cases hc : checkMAC lib hook2 r r.Body.unread with
    | none => exact checkMAC_none_imp lib hook2 r _ hc
    | some e =>
      rw [hc] at herr
      simp only [Option.some.injEq] at herr
      rcases checkMAC_some_cases lib hook2 r _ e hc with h | h <;> rw [h] at herr <;> cases herr

/-- Witness of C12: a signed delivery of the kind `Push Hook`, which is no
kind of Gitea. -/
theorem C12_unknown_event_witness :
    str "Push Hook" ∉ payloadTable.map Prod.fst ∧
    (Parse toyStdLib ⟨str "sampleToken"⟩
      (NewRequest (str "POST")
        [(str "X-Gitea-Event", [str "Push Hook"]),
         (str "X-Gitea-Signature", [(List.replicate 32 (str "b4")).flatten])]
        (str "null"))
      [str "Push Hook"]).1
      = (none, some (Error.Errorf (str "unknown event Push Hook"))) :=
  ⟨by decide,
   (C12_unknown_event toyStdLib ⟨str "sampleToken"⟩
     (NewRequest (str "POST")
        [(str "X-Gitea-Event", [str "Push Hook"]),
         (str "X-Gitea-Signature", [(List.replicate 32 (str "b4")).flatten])]
        (str "null"))
     [str "Push Hook"] (str "Push Hook")
     (by decide) (by decide) (by decide) (by decide) (by decide) (by decide) (by decide)
     (Or.inr (by decide))).1⟩

/-! ## Errors and payloads -/

/-- C13, the claim as stated fails: every `case` of the switch ends in
`return pl, err`, so a decode failure hands the struct `pl` to the caller next
to the error. An unsigned `push` delivery whose body `nul` the decoder rejects
gives a `PushPayload` and a non-nil error at once. -/
theorem C13_decode_failure_counterexample :
    (toyStdLib.jsonUnmarshal Shape.PushPayload (str "nul")).2 = some 3 ∧
    (Parse toyStdLib ⟨[]⟩
      (NewRequest (str "POST") [(str "X-Gitea-Event", [str "push"])] (str "nul"))
      [PushEvents]).1
      = (some ⟨Shape.PushPayload, []⟩, some (Error.unmarshal 3)) ∧
    (Parse toyStdLib ⟨[]⟩
      (NewRequest (str "POST") [(str "X-Gitea-Event", [str "push"])] (str "nul"))
      [PushEvents]).1.2 ≠ none ∧
    (Parse toyStdLib ⟨[]⟩
      (NewRequest (str "POST") [(str "X-Gitea-Event", [str "push"])] (str "nul"))
      [PushEvents]).1.1 ≠ none := by
  refine ⟨?_, ?_, ?_, ?_⟩ <;> decide

/-- C13 as amended: for every verifier, request and list of events, when
`Parse` returns a non-nil error, either the payload is nil, or the error is the
error of `json.Unmarshal` for one of the eight shapes and the payload is the
struct of that shape as the decoder left it. So every error that is not an
error of the decoder comes with a nil payload. -/
theorem C13_payload_on_error {V E : Type} (lib : StdLib V E) (hook : Webhook)
    (r : http.Request) (events : List Event) (e : Error E)
    (herr : (Parse lib hook r events).1.2 = some e) :
    (Parse lib hook r events).1.1 = none ∨
    ∃ (shape : Shape) (d : E),
      (lib.jsonUnmarshal shape r.Body.unread).2 = some d ∧
      e = Error.unmarshal d ∧
      (Parse lib hook r events).1.1
        = some ⟨shape, (lib.jsonUnmarshal shape r.Body.unread).1⟩ := by
  rw [Parse_fst] at herr ⊢
  rcases run_cases lib hook r events with ⟨e1, h, _⟩ | h | ⟨e1, _, h⟩ | ⟨_, h⟩
  · rw [h]; exact Or.inl rfl
  · rw [h]; exact Or.inl rfl
  · rw [h]; exact Or.inl rfl
  · rw [h] at herr ⊢
    simp only at herr ⊢
    rcases switchEvent_cases lib (http.Header.Get r.Header (str "X-Gitea-Event"))
      r.Body.unread with ⟨shape, hs⟩ | hs
    · rw [hs] at herr ⊢
      simp only [decodeAs] at herr ⊢
      cases hd : (lib.jsonUnmarshal shape r.Body.unread).2 with
      | none => rw [hd] at herr; cases herr
      | some d =>
        rw [hd] at herr
        exact Or.inr ⟨shape, d, hd, (Option.some.inj herr).symm, rfl⟩
    · rw [hs]; exact Or.inl rfl

/-- Witness of C13 as amended: an unsigned delivery to a verifier with a secret;
the error is `ErrMissingGiteaSignatureHeader` and the payload is nil. -/
theorem C13_payload_on_error_witness :
    (Parse toyStdLib ⟨str "sampleToken"⟩
      (NewRequest (str "POST") [(str "X-Gitea-Event", [str "push"])] (str "null"))
      [PushEvents]).1.2 = some Error.ErrMissingGiteaSignatureHeader ∧
    ((Parse toyStdLib ⟨str "sampleToken"⟩
      (NewRequest (str "POST") [(str "X-Gitea-Event", [str "push"])] (str "null"))
      [PushEvents]).1.1 = none ∨
    ∃ (shape : Shape) (d : Nat),
      (toyStdLib.jsonUnmarshal shape
        (NewRequest (str "POST") [(str "X-Gitea-Event", [str "push"])]
          (str "null")).Body.unread).2 = some d ∧
      Error.ErrMissingGiteaSignatureHeader = Error.unmarshal d ∧
      (Parse toyStdLib ⟨str "sampleToken"⟩
        (NewRequest (str "POST") [(str "X-Gitea-Event", [str "push"])] (str "null"))
        [PushEvents]).1.1
        = some ⟨shape, (toyStdLib.jsonUnmarshal shape
            (NewRequest (str "POST") [(str "X-Gitea-Event", [str "push"])]
              (str "null")).Body.unread).1⟩) :=
  ⟨by decide,
   C13_payload_on_error toyStdLib ⟨str "sampleToken"⟩
     (NewRequest (str "POST") [(str "X-Gitea-Event", [str "push"])] (str "null"))
     [PushEvents] Error.ErrMissingGiteaSignatureHeader (by decide)⟩

/-- C14: for a `POST` request of a subscribed kind (so the list of events is not
empty) whose body has zero bytes or cannot be read, `Parse` returns no payload
and `ErrParsingPayload`, for every verifier and every signature header: line
160 comes before the signature check, so this is the result also when a secret
is set and the signature is absent or wrong. -/
theorem C14_empty_or_unreadable_body {V E : Type} (lib : StdLib V E) (hook : Webhook)
    (r : http.Request) (events : List Event)
    (hm : r.Method = http.MethodPost)
    (hk : http.Header.Get r.Header (str "X-Gitea-Event") ≠ [])
    (hmem : http.Header.Get r.Header (str "X-Gitea-Event") ∈ events)
    (hbody : r.Body.failing = true ∨ r.Body.unread = []) :
    (Parse lib hook r events).1 = (none, some Error.ErrParsingPayload) := by
  have hev : events ≠ [] := List.ne_nil_of_mem hmem
  have hf := (found_iff_mem _ _).2 hmem
  simp only [Parse, Parse.run, ioutil.ReadAll, hm, hf]
  simp only [List.length_eq_zero, hev, hk]
  rcases hbody with h | h <;> simp [h]

/-- Witness of C14: a verifier with a secret, a `push` delivery with an empty
body and a wrong signature; and the same with a body whose reading fails. -/
theorem C14_empty_or_unreadable_body_witness :
    (Parse toyStdLib ⟨str "sampleToken"⟩
      (NewRequest (str "POST")
        [(str "X-Gitea-Event", [str "push"]), (str "X-Gitea-Signature", [str "bad"])] [])
      [PushEvents]).1 = (none, some Error.ErrParsingPayload) ∧
    (Parse toyStdLib ⟨str "sampleToken"⟩
      ⟨str "POST", [(str "X-Gitea-Event", [str "push"])], ⟨str "null", true, 0⟩⟩
      [PushEvents]).1 = (none, some Error.ErrParsingPayload) :=
  ⟨C14_empty_or_unreadable_body toyStdLib ⟨str "sampleToken"⟩
     (NewRequest (str "POST")
        [(str "X-Gitea-Event", [str "push"]), (str "X-Gitea-Signature", [str "bad"])] [])
     [PushEvents] (by decide) (by decide) (by decide) (Or.inr (by decide)),
   C14_empty_or_unreadable_body toyStdLib ⟨str "sampleToken"⟩
     ⟨str "POST", [(str "X-Gitea-Event", [str "push"])], ⟨str "null", true, 0⟩⟩
     [PushEvents] (by decide) (by decide) (by decide) (Or.inl (by decide))⟩

/-! ## The request body -/

/-- C15: on every exit of `Parse` (the early error returns, the `default` of
the switch, a decode failure, success), for every verifier, request and list of
events, the body ends drained and closed once more: from any body state `Parse`
leads to no unread bytes and to the close count plus one. -/
theorem C15_body_drained_and_closed {V E : Type} (lib : StdLib V E) (hook : Webhook)
    (r : http.Request) (events : List Event) :
    (Parse lib hook r events).2.unread = [] ∧
    (Parse lib hook r events).2.closed = r.Body.closed + 1 := by
  refine ⟨rfl, ?_⟩
  have hclosed : (Parse.run lib hook r events).2.closed = r.Body.closed := by
    rcases run_cases lib hook r events with ⟨e1, h, _⟩ | h | ⟨e1, _, h⟩ | ⟨_, h⟩ <;> rw [h] <;> rfl
  simp only [Parse, Parse.deferred, ioutil.CopyDiscard, ReadCloser.Close, hclosed]

/-- C16, the claim as stated fails: the deferred function of lines 126-129 runs
on the early returns too and reads the body to its end. With no events, and
with the method `GET`, the four bytes of the body are unread before the call
and none is after it. -/
theorem C16_body_consumed_counterexample :
    (NewRequest (str "POST") [(str "X-Gitea-Event", [str "push"])] (str "null")).Body.unread
      = str "null" ∧
    (Parse toyStdLib ⟨[]⟩
      (NewRequest (str "POST") [(str "X-Gitea-Event", [str "push"])] (str "null")) [])
      = ((none, some Error.ErrEventNotSpecifiedToParse), ⟨[], false, 1⟩) ∧
    (Parse toyStdLib ⟨[]⟩
      (NewRequest (str "GET") [(str "X-Gitea-Event", [str "push"])] (str "null")) [PushEvents])
      = ((none, some Error.ErrInvalidHTTPMethod), ⟨[], false, 1⟩) ∧
    (Parse toyStdLib ⟨[]⟩
      (NewRequest (str "POST") [(str "X-Gitea-Event", [str "push"])] (str "null")) []).2.unread
      ≠ (NewRequest (str "POST") [(str "X-Gitea-Event", [str "push"])]
          (str "null")).Body.unread := by
  refine ⟨?_, ?_, ?_, ?_⟩ <;> decide

/-- C16 as amended: when the list of events is empty or the method is not
`POST`, `Parse` returns `ErrEventNotSpecifiedToParse` or `ErrInvalidHTTPMethod`
with no payload, and its body reaches the `return` without having read the
request body (the body state is the one before the call); the deferred function
then drains and closes the body, so after the call no byte is unread and the
close count is one more. -/
theorem C16_precondition_then_drain {V E : Type} (lib : StdLib V E) (hook : Webhook)
    (r : http.Request) (events : List Event)
    (hpre : events = [] ∨ r.Method ≠ http.MethodPost) :
    ((Parse lib hook r events).1 = (none, some Error.ErrEventNotSpecifiedToParse) ∨
     (Parse lib hook r events).1 = (none, some Error.ErrInvalidHTTPMethod)) ∧
    (Parse.run lib hook r events).2 = r.Body ∧
    (Parse lib hook r events).2 = ⟨[], r.Body.failing, r.Body.closed + 1⟩ := by
  have hrun : Parse.run lib hook r events
        = ((none, some Error.ErrEventNotSpecifiedToParse), r.Body) ∨
      Parse.run lib hook r events = ((none, some Error.ErrInvalidHTTPMethod), r.Body) := by
    by_cases hev : events = []
    · left
      simp [Parse.run, hev]
    · rcases hpre with h | h
      · exact absurd h hev
      · right
        simp [Parse.run, hev, h]
  rcases hrun with h | h
  · refine ⟨Or.inl ?_, ?_, ?_⟩
    · rw [Parse_fst, h]
    · rw [h]
    · simp only [Parse, h, Parse.deferred, ioutil.CopyDiscard, ReadCloser.Close]
  · refine ⟨Or.inr ?_, ?_, ?_⟩
    · rw [Parse_fst, h]
    · rw [h]
    · simp only [Parse, h, Parse.deferred, ioutil.CopyDiscard, ReadCloser.Close]

/-- Witness of C16 as amended: a `GET` request with a body of four bytes. -/
theorem C16_precondition_then_drain_witness :
    (NewRequest (str "GET") [(str "X-Gitea-Event", [str "push"])] (str "null")).Method
      ≠ http.MethodPost ∧
    (Parse.run toyStdLib ⟨[]⟩
      (NewRequest (str "GET") [(str "X-Gitea-Event", [str "push"])] (str "null"))
      [PushEvents]).2
      = (NewRequest (str "GET") [(str "X-Gitea-Event", [str "push"])] (str "null")).Body ∧
    (Parse toyStdLib ⟨[]⟩
      (NewRequest (str "GET") [(str "X-Gitea-Event", [str "push"])] (str "null"))
      [PushEvents]).2 = ⟨[], false, 1⟩ :=
  ⟨by decide,
   (C16_precondition_then_drain toyStdLib ⟨[]⟩
     (NewRequest (str "GET") [(str "X-Gitea-Event", [str "push"])] (str "null"))
     [PushEvents] (Or.inr (by decide))).2⟩

/-! ## customTime -/

/-- C17: `customTime.UnmarshalJSON` refines the reference decoder of the
specification. For every `time` library, every value of `t.Time` before the
call and every input `b`: what the caller gets (the time when the error is nil)
is what the reference decoder gives; and with `s` the input without its leading
and trailing double quotes, an error is returned exactly when `s` is not `null`
and no layout of the list parses `s`. -/
theorem C17_customTime_refines_reference {T PE : Type} (tl : TimeLib T PE) (t : T)
    (b : List UInt8) :
    customTime.decoded (customTime.UnmarshalJSON tl t b) = customTime.referenceDecoder tl b ∧
    ((customTime.UnmarshalJSON tl t b).2 ≠ none ↔
      (List.rdropWhile (fun a => a == 0x22) (List.dropWhile (fun a => a == 0x22) b) ≠ str "null" ∧
       ∀ l ∈ customTime.layout,
        (tl.Parse l
          (List.rdropWhile (fun a => a == 0x22) (List.dropWhile (fun a => a == 0x22) b))).2
          ≠ none)) := by
  have hdec : ∀ st : T × Option PE, customTime.decoded st = none ↔ st.2 ≠ none := by
    rintro ⟨v, _ | e⟩ <;> simp [customTime.decoded]
  have hloop : ∀ s : GoString,
      customTime.decoded (customTime.UnmarshalJSON.loop tl s customTime.layout (t, none))
        = customTime.layout.findSome? (fun l => customTime.decoded (tl.Parse l s)) := by
    intro s
    unfold customTime.layout
    rcases hp : tl.Parse (str "2006-01-02 15:04:05 MST") s with ⟨v, _ | err⟩
    · simp [customTime.UnmarshalJSON.loop, hp, customTime.decoded, List.findSome?]
    · rw [customTime.UnmarshalJSON.loop, hp]
      simp only
      rw [customTime.loop_decoded tl s _ (v, some err) rfl]
      simp [List.findSome?, hp, customTime.decoded]
  have href : customTime.decoded (customTime.UnmarshalJSON tl t b)
      = customTime.referenceDecoder tl b := by
    unfold customTime.UnmarshalJSON customTime.referenceDecoder
    simp only [strings.Trim_eq]
    split_ifs with hnull
    · rfl
    · exact hloop _
  refine ⟨href, ?_⟩
  rw [← hdec, href]
  unfold customTime.referenceDecoder
  simp only
  split_ifs with hnull
  · simp [hnull]
  · have hl : customTime.layout
        = [str "2006-01-02 15:04:05 MST", str "2006-01-02 15:04:05 Z07:00",
           str "2006-01-02 15:04:05 Z0700", str "2006-01-02T15:04:05Z07:00"] := rfl
    rw [hl, List.findSome?_eq_none_iff]
    constructor
    · intro h
      exact ⟨hnull, fun l hlm => (hdec _).1 (h l hlm)⟩
    · rintro ⟨_, h⟩ l hlm
      exact (hdec _).2 (h l hlm)

end gitea
